import Mathlib

/-!
Verification of the expectation-chain matching engine of a Knex mocking
library.  The engine records expectation chains (`MockQuery` builders writing
into an `ExpectationStore`), records invocation chains (`MockResolve`), and
matches an invocation against the stored chains (`findResult`), exposing the
result synchronously (`valueOf`) and as an awaitable (`then`).

The embedding follows the source: a `Data` record mirrors the `Data` class
(`action`, `parameters`, `isMore`, optional `result`); chains are lists of
`Data`; the store is a list of chains in registration order.  Runtime values
(call arguments, raw text, results) are modelled by the JSON-like `Value`
type; lodash deep equality on such values is structural equality.
-/

/-- JSON-like runtime values: call arguments, raw text and results. -/
inductive Value where
  | vnull : Value
  | vbool : Bool → Value
  | vnum : Int → Value
  | vstr : String → Value
  | varr : List Value → Value
  | vobj : List (String × Value) → Value

mutual

/-- Structural (deep) equality on values, modelling lodash `isEqual` on the
JSON-like values the engine stores. -/
def Value.beq : Value → Value → Bool
  | .vnull, .vnull => true
  | .vbool a, .vbool b => a == b
  | .vnum a, .vnum b => a == b
  | .vstr a, .vstr b => a == b
  | .varr a, .varr b => Value.beqArr a b
  | .vobj a, .vobj b => Value.beqObj a b
  | _, _ => false

/-- Elementwise deep equality of value arrays. -/
def Value.beqArr : List Value → List Value → Bool
  | [], [] => true
  | x :: xs, y :: ys => Value.beq x y && Value.beqArr xs ys
  | _, _ => false

/-- Fieldwise deep equality of objects (ordered key-value lists). -/
def Value.beqObj : List (String × Value) → List (String × Value) → Bool
  | [], [] => true
  | (k, v) :: xs, (l, w) :: ys => k == l && Value.beq v w && Value.beqObj xs ys
  | _, _ => false

end

mutual

def Value.eq_of_beq : ∀ {a b : Value}, Value.beq a b = true → a = b
  | .vnull, .vnull, _ => rfl
  | .vbool a, .vbool b, h => by simpa [Value.beq] using h
  | .vnum a, .vnum b, h => by simpa [Value.beq] using h
  | .vstr a, .vstr b, h => by simpa [Value.beq] using h
  | .varr a, .varr b, h => by
      rw [Value.eqArr_of_beqArr (a := a) (b := b) (by simpa [Value.beq] using h)]
  | .vobj a, .vobj b, h => by
      rw [Value.eqObj_of_beqObj (a := a) (b := b) (by simpa [Value.beq] using h)]

def Value.eqArr_of_beqArr : ∀ {a b : List Value}, Value.beqArr a b = true → a = b
  | [], [], _ => rfl
  | x :: xs, y :: ys, h => by
      have h1 : Value.beq x y = true ∧ Value.beqArr xs ys = true := by
        simpa [Value.beqArr] using h
      rw [Value.eq_of_beq h1.1, Value.eqArr_of_beqArr h1.2]

def Value.eqObj_of_beqObj :
    ∀ {a b : List (String × Value)}, Value.beqObj a b = true → a = b
  | [], [], _ => rfl
  | (k, v) :: xs, (l, w) :: ys, h => by
      have h1 : (k == l) = true ∧ Value.beq v w = true ∧ Value.beqObj xs ys = true := by
        simpa [Value.beqObj, and_assoc] using h
      have hk : k = l := by simpa using h1.1
      rw [hk, Value.eq_of_beq h1.2.1, Value.eqObj_of_beqObj h1.2.2]

end

mutual

def Value.beq_refl : ∀ a : Value, Value.beq a a = true
  | .vnull => rfl
  | .vbool a => by simp [Value.beq]
  | .vnum a => by simp [Value.beq]
  | .vstr a => by simp [Value.beq]
  | .varr a => by simpa [Value.beq] using Value.beqArr_refl a
  | .vobj a => by simpa [Value.beq] using Value.beqObj_refl a

def Value.beqArr_refl : ∀ a : List Value, Value.beqArr a a = true
  | [] => rfl
  | x :: xs => by simp [Value.beqArr, Value.beq_refl x, Value.beqArr_refl xs]

def Value.beqObj_refl : ∀ a : List (String × Value), Value.beqObj a a = true
  | [] => rfl
  | (k, v) :: xs => by simp [Value.beqObj, Value.beq_refl v, Value.beqObj_refl xs]

end

instance : DecidableEq Value := fun a b =>
  decidable_of_iff (Value.beq a b = true)
    ⟨Value.eq_of_beq, fun h => h ▸ Value.beq_refl a⟩

/-- The `Data` class of the source: one element of a chain.  `result` is
`none` when the `result` property is absent (JS `undefined`). -/
structure Data where
  action : String
  parameters : Value
  isMore : Bool
  result : Option Value := none
deriving DecidableEq

/-- Operation-name constants used by the claims (source declares one constant
per fluent verb; the others are identical in shape). -/
def TABLE : String := "table"

/-- Source constant `SELECT = "select"`. -/
def SELECT : String := "select"

/-- Source constant `WHERE = "where"`. -/
def WHERE : String := "where"

/-- Source constant `RAW = "raw"` (the fluent `raw` verb, distinct from the
factory method `raw`). -/
def RAW : String := "raw"

/-- `CraftData(action, parameters, isMore)` of the source: builds a `Data`
with no `result` property. -/
def CraftData (action : String) (parameters : Value) (isMore : Bool) : Data :=
  { action := action, parameters := parameters, isMore := isMore, result := none }

/-- The `MockQuery` constructor acting on the fresh chain (`dataArray`): if a
table name is passed and is truthy (in JS the empty string is falsy), a seed
`Data` crafted as `CraftData(TABLE, tableName, true)` is pushed — note the
parameters are the bare string, not an argument array. -/
def mockQueryInit (tableName : Option String) : List Data :=
  match tableName with
  | some t => if t = "" then [] else [CraftData TABLE (Value.vstr t) true]
  | none => []

/-- `EXPECT().raw(input)`: the factory builds the string `raw:` ++ input and
passes it to the `MockQuery` constructor as the table name, so the seed is
`CraftData(TABLE, "raw:" ++ input, true)` — same action name as a table seed. -/
def rawTag (input : String) : String := "raw:" ++ input

/-- Chain seeded by the expectation factory method `EXPECT().raw(input)`. -/
def expectRaw (input : String) : List Data := mockQueryInit (some (rawTag input))

/-- Fluent `MockQuery.table(...input)`: pushes
`CraftData(TABLE, input, true)` where `input` is the variadic argument array. -/
def MockQuery.table (dataArray : List Data) (input : List Value) : List Data :=
  dataArray ++ [CraftData TABLE (Value.varr input) true]

/-- Fluent `MockQuery.select(...input)`. -/
def MockQuery.select (dataArray : List Data) (input : List Value) : List Data :=
  dataArray ++ [CraftData SELECT (Value.varr input) true]

/-- Fluent `MockQuery.where(...input)`. -/
def MockQuery.whereM (dataArray : List Data) (input : List Value) : List Data :=
  dataArray ++ [CraftData WHERE (Value.varr input) true]

/-- `MockQuery.RESOLVE(data)`: writes `isMore = false` and `result = data`
into the element at index `length - 1` of the chain.  On an empty chain the
source reads property `isMore` of `undefined`, a runtime `TypeError`; that
failure is modelled by `none`. -/
def MockQuery.RESOLVE (dataArray : List Data) (data : Value) : Option (List Data) :=
  match dataArray.getLast? with
  | none => none
  | some lastD =>
      some (dataArray.dropLast ++ [{ lastD with isMore := false, result := some data }])

/-- The `MockResolve` constructor acting on the fresh `currentStack`: the same
guarded seeding as the `MockQuery` constructor. -/
def MockResolve.init (tableName : Option String) : List Data :=
  match tableName with
  | some t => if t = "" then [] else [CraftData TABLE (Value.vstr t) true]
  | none => []

/-- `MockDB().raw(input)`: builds `raw:` ++ input and passes it to the
`MockResolve` constructor as the table name. -/
def MockResolve.initRaw (input : String) : List Data :=
  MockResolve.init (some (rawTag input))

/-- Fluent `MockResolve.table(...input)` (the diagnostic `console.log` has no
effect on the data). -/
def MockResolve.table (currentStack : List Data) (input : List Value) : List Data :=
  currentStack ++ [CraftData TABLE (Value.varr input) true]

/-- Fluent `MockResolve.select(...input)`. -/
def MockResolve.select (currentStack : List Data) (input : List Value) : List Data :=
  currentStack ++ [CraftData SELECT (Value.varr input) true]

/-- Fluent `MockResolve.where(...input)`. -/
def MockResolve.whereM (currentStack : List Data) (input : List Value) : List Data :=
  currentStack ++ [CraftData WHERE (Value.varr input) true]

/-- JS `parameters.length`: character count on a string, element count on an
array, and `undefined` (falsy, hence `0` for the wildcard test) on every
other value. -/
def paramsLen : Value → Nat
  | .vstr s => s.length
  | .varr l => l.length
  | _ => 0

/-- The inner loop of `findResult` comparing one candidate chain against the
invocation stack position by position: a differing `action` breaks with no
match; empty expectation `parameters` skip the comparison (wildcard); lodash
`isEqual` inequality of parameters breaks with no match. -/
def chainLinksMatch : List Data → List Data → Bool
  | [], _ => true
  | _ :: _, [] => true
  | e :: es, a :: bs =>
    if e.action ≠ a.action then false
    else if paramsLen e.parameters = 0 then chainLinksMatch es bs
    else if e.parameters ≠ a.parameters then false
    else chainLinksMatch es bs

/-- `MockResolve.findResult()`: scan `resolveQue` in insertion order; skip a
candidate whose length differs from `currentStack`; skip when an inner
comparison broke the match; return the candidate's last element when the
candidate is non-empty and its last element has `isMore === false`; otherwise
continue with the next candidate.  `null` is modelled by `none`. -/
def MockResolve.findResult (resolveQue : List (List Data))
    (currentStack : List Data) : Option Data :=
  match resolveQue with
  | [] => none
  | resolution :: rest =>
    if resolution.length ≠ currentStack.length then
      MockResolve.findResult rest currentStack
    else if chainLinksMatch resolution currentStack = false then
      MockResolve.findResult rest currentStack
    else
      match resolution.getLast? with
      | some lastD =>
          if lastD.isMore = false then some lastD
          else MockResolve.findResult rest currentStack
      | none => MockResolve.findResult rest currentStack

/-- `MockResolve.valueOf()`: the matched element's `result` property when a
match exists (`none` models JS `undefined` when the property is absent),
otherwise the empty array. -/
def MockResolve.valueOf (resolveQue : List (List Data))
    (currentStack : List Data) : Option Value :=
  match MockResolve.findResult resolveQue currentStack with
  | some res => res.result
  | none => some (Value.varr [])

/-- `MockResolve.then(resolve, reject)`: computes `finalRes` exactly as
`valueOf` computes its return value and resolves the promise with it; this is
the value the awaitable path delivers. -/
def MockResolve.thenValue (resolveQue : List (List Data))
    (currentStack : List Data) : Option Value :=
  match MockResolve.findResult resolveQue currentStack with
  | some res => res.result
  | none => some (Value.varr [])

/-! Specification-side predicates, written from the words of the spec to be
compared against the engine functions above. -/

/-- Spec condition (b): the candidate and the invocation carry the same
operation name at every position. -/
def namesAgree (cand inv : List Data) : Bool :=
  (cand.zip inv).all fun p => p.1.action == p.2.action

/-- Spec condition (c): at every position the candidate's parameters are
empty (wildcard) or deep-equal the invocation's parameters. -/
def paramsAgree (cand inv : List Data) : Bool :=
  (cand.zip inv).all fun p =>
    decide (paramsLen p.1.parameters = 0) || decide (p.1.parameters = p.2.parameters)

/-- Spec condition (d): the candidate is sealed — non-empty, last operation
has `isMore` false and carries a result. -/
def sealedb (c : List Data) : Bool :=
  match c.getLast? with
  | some d => !d.isMore && d.result.isSome
  | none => false

/-- Spec conditions (a)-(c): equal length, equal names, wildcard-or-equal
parameters. -/
def structMatches (inv cand : List Data) : Bool :=
  decide (cand.length = inv.length) && namesAgree cand inv && paramsAgree cand inv

/-- Spec conditions (a)-(d) together: a sealed structural match. -/
def goodMatch (inv cand : List Data) : Bool :=
  structMatches inv cand && sealedb cand

/-- The matcher as the spec words it: the last operation of the first stored
chain satisfying conditions (a)-(d). -/
def firstMatch (store : List (List Data)) (inv : List Data) : Option Data :=
  (store.find? fun cand => goodMatch inv cand).bind List.getLast?

/-- Invariant of every store reachable through the source API: `isMore` is
set to `false` only by `RESOLVE`, which simultaneously attaches a result. -/
def WellFormed (store : List (List Data)) : Prop :=
  ∀ c ∈ store, ∀ d ∈ c, d.isMore = false → d.result.isSome = true

instance : DecidablePred WellFormed := fun store => by
  unfold WellFormed; infer_instance

/-- The acceptance test the source loop applies to one candidate: equal
length, inner comparisons all pass, and the last element has `isMore` false
(the source checks only `isMore`, not the presence of `result`). -/
def codeAccept (cand inv : List Data) : Bool :=
  decide (cand.length = inv.length) && chainLinksMatch cand inv &&
    (match cand.getLast? with
     | some d => !d.isMore
     | none => false)

/-- The `result` property of a chain's last element. -/
def lastResult (c : List Data) : Option Value :=
  match c.getLast? with
  | some d => d.result
  | none => none

/-- What `RESOLVE` writes on a non-empty chain: the last element with
`isMore := false` and the result attached. -/
def sealLast (c : List Data) (v : Value) : List Data :=
  match c.getLast? with
  | none => []
  | some d => c.dropLast ++ [{ d with isMore := false, result := some v }]

/-- Rebuild an invocation chain from exactly a chain's operation names and
parameters (invocation elements are crafted with `isMore = true`, no result). -/
def stripToInv (c : List Data) : List Data :=
  c.map fun d => CraftData d.action d.parameters true

/-! Stateful embedding of `MockResolve` resolution.  The fields read by
`findResult`, `valueOf` and `then` are `resolveQue` and `currentStack`; each
field access is modelled as a read returning the value and the (unchanged)
state, so that the frame property is a theorem about the embedding rather
than an assumption. -/

/-- The mutable fields of a `MockResolve` instance touched by resolution. -/
structure MRState where
  resolveQue : List (List Data)
  currentStack : List Data
deriving DecidableEq

/-- Field read `this.resolveQue`. -/
def getQue (s : MRState) : List (List Data) × MRState := (s.resolveQue, s)

/-- Field read `this.currentStack`. -/
def getStack (s : MRState) : List Data × MRState := (s.currentStack, s)

/-- Stateful `findResult`: reads the two fields and runs the pure scan. -/
def MockResolve.findResultSt (s : MRState) : Option Data × MRState :=
  let q := getQue s
  let c := getStack q.2
  (MockResolve.findResult q.1 c.1, c.2)

/-- Stateful `valueOf`. -/
def MockResolve.valueOfSt (s : MRState) : Option Value × MRState :=
  let r := MockResolve.findResultSt s
  match r.1 with
  | some res => (res.result, r.2)
  | none => (some (Value.varr []), r.2)

/-- Stateful `then` (the value the promise resolves with). -/
def MockResolve.thenValueSt (s : MRState) : Option Value × MRState :=
  let r := MockResolve.findResultSt s
  match r.1 with
  | some res => (res.result, r.2)
  | none => (some (Value.varr []), r.2)

/-! Shared lemmas. -/

/-- The source's inner comparison loop passes exactly when the spec's
conditions (b) and (c) both hold. -/
theorem chainLinksMatch_iff : ∀ cand inv : List Data,
    chainLinksMatch cand inv = true ↔
      (namesAgree cand inv = true ∧ paramsAgree cand inv = true)
  | [], inv => by simp [chainLinksMatch, namesAgree, paramsAgree]
  | e :: es, [] => by simp [chainLinksMatch, namesAgree, paramsAgree]
  | e :: es, a :: bs => by
      have ih := chainLinksMatch_iff es bs
      by_cases hact : e.action = a.action
      · by_cases hwild : paramsLen e.parameters = 0
        · simp [chainLinksMatch, namesAgree, paramsAgree, hact, hwild, ih, and_assoc]
        · by_cases hpar : e.parameters = a.parameters
          · simp [chainLinksMatch, namesAgree, paramsAgree, hact, hwild, hpar, ih,
              and_assoc]
          · simp [chainLinksMatch, namesAgree, paramsAgree, hact, hwild, hpar]
      · simp [chainLinksMatch, namesAgree, paramsAgree, hact]

/-- Boolean form of `chainLinksMatch_iff`. -/
theorem chainLinksMatch_eq (cand inv : List Data) :
    chainLinksMatch cand inv = (namesAgree cand inv && paramsAgree cand inv) := by
  cases h1 : chainLinksMatch cand inv with
  | true =>
      have h2 := (chainLinksMatch_iff cand inv).1 h1
      simp [h2.1, h2.2]
  | false =>
      cases h2 : namesAgree cand inv <;> cases h3 : paramsAgree cand inv <;>
        simp_all
      have h4 := (chainLinksMatch_iff cand inv).2 ⟨h2, h3⟩
      rw [h1] at h4
      exact Bool.noConfusion h4

/-- On a matching-length pair, the source acceptance test coincides with the
spec's conditions (a)-(d) whenever chains with a sealed last element carry a
result on it (the well-formedness invariant). -/
theorem goodMatch_eq_codeAccept (inv cand : List Data)
    (hwf : ∀ d ∈ cand, d.isMore = false → d.result.isSome = true) :
    goodMatch inv cand = codeAccept cand inv := by
  unfold goodMatch structMatches codeAccept sealedb
  rw [chainLinksMatch_eq]
  cases hlast : cand.getLast? with
  | none => simp
  | some d =>
      have hd : d ∈ cand := List.mem_of_mem_getLast? hlast
      cases hm : d.isMore with
      | false =>
          have hres : d.result.isSome = true := hwf d hd hm
          simp [hm, hres, Bool.and_assoc]
      | true => simp [hm, Bool.and_assoc]

/-- A chain's inner comparisons always pass against the invocation rebuilt
from its own names and parameters: names are equal at every position, and
parameters are either wildcard or equal to themselves. -/
theorem stripToInv_cons (e : Data) (es : List Data) :
    stripToInv (e :: es) = CraftData e.action e.parameters true :: stripToInv es := rfl

theorem chainLinksMatch_self : ∀ c : List Data, chainLinksMatch c (stripToInv c) = true
  | [] => rfl
  | e :: es => by
      have ih := chainLinksMatch_self es
      show chainLinksMatch (e :: es)
        (CraftData e.action e.parameters true :: stripToInv es) = true
      by_cases hwild : paramsLen e.parameters = 0 <;>
        simp [chainLinksMatch, CraftData, hwild, ih]

/-- Rebuilding an invocation preserves the operation count. -/
theorem stripToInv_length (c : List Data) : (stripToInv c).length = c.length := by
  simp [stripToInv]

/-- On a non-empty chain, `RESOLVE` succeeds and produces `sealLast`. -/
theorem RESOLVE_of_ne_nil (c : List Data) (v : Value) (h : c ≠ []) :
    MockQuery.RESOLVE c v = some (sealLast c v) := by
  obtain ⟨d, hd⟩ := Option.isSome_iff_exists.1 (List.getLast?_isSome.mpr h)
  simp [MockQuery.RESOLVE, sealLast, hd]

/-- Sealing writes only the last element: the sealed chain keeps the front of
the chain and ends in the old last element with `isMore := false` and the
result attached. -/
theorem sealLast_eq (c : List Data) (d : Data) (v : Value) (hd : c.getLast? = some d) :
    sealLast c v = c.dropLast ++ [{ d with isMore := false, result := some v }] := by
  simp [sealLast, hd]

/-- Sealing twice overwrites: the second result replaces the first. -/
theorem sealLast_sealLast (c : List Data) (v₁ v₂ : Value) (h : c ≠ []) :
    sealLast (sealLast c v₁) v₂ = sealLast c v₂ := by
  obtain ⟨d, hd⟩ := Option.isSome_iff_exists.1 (List.getLast?_isSome.mpr h)
  simp [sealLast, hd, List.getLast?_concat, List.dropLast_concat]

/-- A chain just sealed satisfies the spec's sealed predicate. -/
theorem sealedb_sealLast (c : List Data) (v : Value) (h : c ≠ []) :
    sealedb (sealLast c v) = true := by
  obtain ⟨d, hd⟩ := Option.isSome_iff_exists.1 (List.getLast?_isSome.mpr h)
  simp [sealedb, sealLast, hd, List.getLast?_concat]

/-- The result attached by sealing is the one passed in. -/
theorem lastResult_sealLast (c : List Data) (v : Value) (h : c ≠ []) :
    lastResult (sealLast c v) = some v := by
  obtain ⟨d, hd⟩ := Option.isSome_iff_exists.1 (List.getLast?_isSome.mpr h)
  simp [lastResult, sealLast, hd, List.getLast?_concat]

/-- On well-formed stores the source scan returns exactly the spec's first
sealed structural match. -/
theorem findResult_eq_firstMatch : ∀ (store : List (List Data)) (inv : List Data),
    WellFormed store → MockResolve.findResult store inv = firstMatch store inv
  | [], _, _ => rfl
  | c :: rest, inv, hwf => by
      have hc : ∀ d ∈ c, d.isMore = false → d.result.isSome = true :=
        hwf c (List.mem_cons_self c rest)
      have hrest : WellFormed rest := fun x hx => hwf x (List.mem_cons_of_mem _ hx)
      have ih := findResult_eq_firstMatch rest inv hrest
      have hgc := goodMatch_eq_codeAccept inv c hc
      by_cases hlen : c.length = inv.length
      · by_cases hlinks : chainLinksMatch c inv = true
        · cases hlast : c.getLast? with
          | none =>
              have hacc : codeAccept c inv = false := by
                simp [codeAccept, hlast]
              rw [MockResolve.findResult, firstMatch,
                List.find?_cons_of_neg _ (by simp [hgc, hacc]), ih, firstMatch]
              simp [hlen, hlinks, hlast]
          | some d =>
              cases hm : d.isMore with
              | false =>
                  have hacc : codeAccept c inv = true := by
                    simp [codeAccept, hlast, hm, hlen, hlinks]
                  rw [MockResolve.findResult, firstMatch,
                    List.find?_cons_of_pos _ (by simp [hgc, hacc])]
                  simp [hlen, hlinks, hlast, hm]
              | true =>
                  have hacc : codeAccept c inv = false := by
                    simp [codeAccept, hlast, hm]
                  rw [MockResolve.findResult, firstMatch,
                    List.find?_cons_of_neg _ (by simp [hgc, hacc]), ih, firstMatch]
                  simp [hlen, hlinks, hlast, hm]
        · have hacc : codeAccept c inv = false := by
            simp [codeAccept, hlinks]
          rw [MockResolve.findResult, firstMatch,
            List.find?_cons_of_neg _ (by simp [hgc, hacc]), ih, firstMatch]
          simp [hlen, hlinks]
      · have hacc : codeAccept c inv = false := by
          simp [codeAccept, hlen]
        rw [MockResolve.findResult, firstMatch,
          List.find?_cons_of_neg _ (by simp [hgc, hacc]), ih, firstMatch]
        simp [hlen]

/-- A candidate rejected by the source acceptance test is skipped: scanning
continues on the rest of the store. -/
theorem findResult_cons_skip (b : List Data) (rest : List (List Data))
    (inv : List Data) (h : codeAccept b inv = false) :
    MockResolve.findResult (b :: rest) inv = MockResolve.findResult rest inv := by
  unfold codeAccept at h
  by_cases hlen : b.length = inv.length
  · by_cases hlinks : chainLinksMatch b inv = true
    · cases hlast : b.getLast? with
      | none => simp [MockResolve.findResult, hlen, hlinks, hlast]
      | some d =>
          rw [hlast] at h
          simp [hlen, hlinks] at h
          simp [MockResolve.findResult, hlen, hlinks, hlast, h]
    · simp [MockResolve.findResult, hlen, hlinks]
  · simp [MockResolve.findResult, hlen]

/-- A prefix of candidates all rejected by the source acceptance test is
skipped wholesale. -/
theorem findResult_append_skip : ∀ (pre rest : List (List Data)) (inv : List Data),
    (∀ b ∈ pre, codeAccept b inv = false) →
    MockResolve.findResult (pre ++ rest) inv = MockResolve.findResult rest inv
  | [], _, _, _ => rfl
  | b :: pre, rest, inv, h => by
      rw [List.cons_append, findResult_cons_skip b _ inv (h b (List.mem_cons_self b pre)),
        findResult_append_skip pre rest inv fun x hx => h x (List.mem_cons_of_mem _ hx)]

/-- A candidate passing all checks is returned at once. -/
theorem findResult_cons_hit (c : List Data) (rest : List (List Data))
    (inv : List Data) (d : Data) (hlen : c.length = inv.length)
    (hlinks : chainLinksMatch c inv = true) (hlast : c.getLast? = some d)
    (hm : d.isMore = false) :
    MockResolve.findResult (c :: rest) inv = some d := by
  simp [MockResolve.findResult, hlen, hlinks, hlast, hm]

/-- Sealing never empties a chain. -/
theorem sealLast_ne_nil (c : List Data) (v : Value) (h : c ≠ []) :
    sealLast c v ≠ [] := by
  obtain ⟨d, hd⟩ := Option.isSome_iff_exists.1 (List.getLast?_isSome.mpr h)
  simp [sealLast, hd]

/-- A string of length zero is the empty string. -/
theorem str_of_length_zero (s : String) (h : s.length = 0) : s = "" := by
  have hd : s.data.length = 0 := h
  have hnil : s.data = [] := List.length_eq_zero.mp hd
  cases s
  simp_all

/-- The raw tag is never the empty string. -/
theorem rawTag_ne_empty (r : String) : rawTag r ≠ "" := by
  intro h
  have h2 := congrArg String.length h
  rw [rawTag, String.length_append] at h2
  have h3 : ("raw:").length = 4 := rfl
  have h4 : ("" : String).length = 0 := rfl
  omega

/-- Resolution of a one-element invocation against a store holding one sealed
one-element chain whose parameters are not a wildcard: the registered result
when the parameters deep-equal, the empty default otherwise. -/
theorem valueOf_single_seed (a : String) (p q : Value) (res : Value)
    (hp : paramsLen p ≠ 0) :
    MockResolve.valueOf [[⟨a, p, false, some res⟩]] [⟨a, q, true, none⟩] =
      if p = q then some res else some (Value.varr []) := by
  by_cases hpq : p = q <;>
    simp [MockResolve.valueOf, MockResolve.findResult, chainLinksMatch, hp, hpq]

/-! Claim theorems. -/

/-- C3: on any store (well-formed, as every store reachable through `RESOLVE`
is) and any invocation chain, the matcher scans stored chains in insertion
order and returns the last operation — the carrier of the terminal result —
of the first candidate satisfying (a) equal operation count, (b) equal names
at every position, (c) wildcard-or-deep-equal parameters at every position,
and (d) sealed (last operation has `isMore` false and carries a result);
structurally matching but unsealed chains are skipped, and the
earliest-registered of several sealed matches wins. -/
theorem claim_c3_first_sealed_match_wins (store : List (List Data))
    (inv : List Data) (hwf : WellFormed store) :
    MockResolve.findResult store inv = firstMatch store inv :=
  findResult_eq_firstMatch store inv hwf

/-- Witness for C3: a store whose first chain matches structurally but is
unsealed and whose second chain is a sealed match; the matcher skips the
first and returns the second chain's terminal operation. -/
theorem claim_c3_first_sealed_match_wins_witness :
    WellFormed [[⟨"table", Value.vstr "t", true, none⟩],
        [⟨"table", Value.vstr "t", false, some (Value.vstr "ok")⟩]] ∧
      MockResolve.findResult
        [[⟨"table", Value.vstr "t", true, none⟩],
         [⟨"table", Value.vstr "t", false, some (Value.vstr "ok")⟩]]
        [⟨"table", Value.vstr "t", true, none⟩] =
      firstMatch
        [[⟨"table", Value.vstr "t", true, none⟩],
         [⟨"table", Value.vstr "t", false, some (Value.vstr "ok")⟩]]
        [⟨"table", Value.vstr "t", true, none⟩] :=
  ⟨by decide,
    claim_c3_first_sealed_match_wins _ _ (by decide)⟩

/-- C5: an expectation operation registered with an empty parameter sequence
is a wildcard — the position-by-position comparison succeeds at that position
whatever parameters the invocation operation carries, and matching continues
with the remaining positions. -/
theorem claim_c5_empty_params_wildcard (a : String) (p : Value) (m₁ m₂ : Bool)
    (r₁ r₂ : Option Value) (es bs : List Data) :
    chainLinksMatch (⟨a, Value.varr [], m₁, r₁⟩ :: es) (⟨a, p, m₂, r₂⟩ :: bs) =
      chainLinksMatch es bs := by
  simp [chainLinksMatch, paramsLen]

/-- C6: an invocation matching no sealed chain of a (well-formed) store —
every sealed chain differs in length, names, or non-wildcard parameters, in
particular when the store is empty — resolves without error to the empty
array via both the synchronous and the awaitable path. -/
theorem claim_c6_no_match_empty_default (store : List (List Data))
    (inv : List Data) (hwf : WellFormed store)
    (hnone : ∀ c ∈ store, sealedb c = true → structMatches inv c = false) :
    MockResolve.findResult store inv = none ∧
      MockResolve.valueOf store inv = some (Value.varr []) ∧
      MockResolve.thenValue store inv = some (Value.varr []) := by
  have hfind : MockResolve.findResult store inv = none := by
    rw [findResult_eq_firstMatch store inv hwf]
    unfold firstMatch
    rw [List.find?_eq_none.mpr ?h]
    case h =>
      intro c hc
      unfold goodMatch
      cases hs : sealedb c with
      | true => simp [hnone c hc hs]
      | false => simp
    rfl
  refine ⟨hfind, ?_, ?_⟩ <;> simp [MockResolve.valueOf, MockResolve.thenValue, hfind]

/-- Witness for C6: a store with one sealed chain whose name differs from the
invocation's; resolution yields the empty array on both paths. -/
theorem claim_c6_no_match_empty_default_witness :
    WellFormed [[⟨"table", Value.vstr "other", false, some (Value.vstr "r")⟩]] ∧
      (∀ c ∈ [[⟨"table", Value.vstr "other", false, some (Value.vstr "r")⟩]],
        sealedb c = true →
          structMatches [⟨"select", Value.varr [], true, (none : Option Value)⟩] c = false) ∧
      MockResolve.valueOf [[⟨"table", Value.vstr "other", false, some (Value.vstr "r")⟩]]
        [⟨"select", Value.varr [], true, none⟩] = some (Value.varr []) :=
  ⟨by decide, by decide,
    (claim_c6_no_match_empty_default _ _ (by decide) (by decide)).2.1⟩

/-- C7: for a fixed `MockResolve` state, the synchronous accessor and the
awaitable accessor produce the same value, and repeated or alternating calls
to either keep producing that value — both access paths run the same matching
function and leave the state unchanged. -/
theorem claim_c7_accessors_consistent (s : MRState) :
    (MockResolve.valueOfSt s).1 = (MockResolve.thenValueSt s).1 ∧
      (MockResolve.valueOfSt ((MockResolve.valueOfSt s).2)).1 =
        (MockResolve.valueOfSt s).1 ∧
      (MockResolve.thenValueSt ((MockResolve.thenValueSt s).2)).1 =
        (MockResolve.thenValueSt s).1 ∧
      (MockResolve.valueOfSt ((MockResolve.thenValueSt s).2)).1 =
        (MockResolve.valueOfSt s).1 := by
  cases h : MockResolve.findResult s.resolveQue s.currentStack <;>
    simp [MockResolve.valueOfSt, MockResolve.thenValueSt, MockResolve.findResultSt,
      getQue, getStack, h]

/-- C8: resolution is side-effect free — `findResult`, `valueOf` and `then`
leave the expectation store (`resolveQue`) and the invocation chain
(`currentStack`) unchanged, so resolution can be re-run against the same
state any number of times. -/
theorem claim_c8_resolution_pure (s : MRState) :
    (MockResolve.findResultSt s).2 = s ∧ (MockResolve.valueOfSt s).2 = s ∧
      (MockResolve.thenValueSt s).2 = s := by
  cases h : MockResolve.findResult s.resolveQue s.currentStack <;>
    simp [MockResolve.valueOfSt, MockResolve.thenValueSt, MockResolve.findResultSt,
      getQue, getStack, h]

/-- C4 fails as stated: when an earlier-registered sealed chain also matches
the invocation rebuilt from chain C's operations, resolution returns the
earlier chain's result, not C's.  Here C (result "b") is registered second
behind a structurally identical chain with result "a": the invocation built
from exactly C's names and parameters resolves to "a" on both paths. -/
theorem claim_c4_counterexample :
    ([⟨"table", Value.vstr "t", false, some (Value.vstr "b")⟩] : List Data) ∈
        ([[⟨"table", Value.vstr "t", false, some (Value.vstr "a")⟩],
          [⟨"table", Value.vstr "t", false, some (Value.vstr "b")⟩]] :
          List (List Data)) ∧
      sealedb [⟨"table", Value.vstr "t", false, some (Value.vstr "b")⟩] = true ∧
      lastResult [⟨"table", Value.vstr "t", false, some (Value.vstr "b")⟩] =
        some (Value.vstr "b") ∧
      MockResolve.valueOf
          [[⟨"table", Value.vstr "t", false, some (Value.vstr "a")⟩],
           [⟨"table", Value.vstr "t", false, some (Value.vstr "b")⟩]]
          (stripToInv [⟨"table", Value.vstr "t", false, some (Value.vstr "b")⟩]) ≠
        some (Value.vstr "b") ∧
      MockResolve.thenValue
          [[⟨"table", Value.vstr "t", false, some (Value.vstr "a")⟩],
           [⟨"table", Value.vstr "t", false, some (Value.vstr "b")⟩]]
          (stripToInv [⟨"table", Value.vstr "t", false, some (Value.vstr "b")⟩]) ≠
        some (Value.vstr "b") := by decide

/-- C4 amended: for every sealed chain C of length at least one registered
with result R, provided no earlier-registered chain also passes the matcher's
acceptance test for that invocation — in particular whenever C is the only
registered chain — the invocation built from exactly C's operation names and
parameters resolves to R via both the synchronous and the awaitable path. -/
theorem claim_c4_roundtrip_resolves (pre post : List (List Data))
    (c : List Data) (r : Value) (hseal : sealedb c = true)
    (hres : lastResult c = some r)
    (hpre : ∀ b ∈ pre, codeAccept b (stripToInv c) = false) :
    MockResolve.valueOf (pre ++ c :: post) (stripToInv c) = some r ∧
      MockResolve.thenValue (pre ++ c :: post) (stripToInv c) = some r := by
  cases hlast : c.getLast? with
  | none => simp [sealedb, hlast] at hseal
  | some d =>
      have hseal2 : (!d.isMore && d.result.isSome) = true := by
        simpa [sealedb, hlast] using hseal
      have hres2 : d.result = some r := by
        simpa [lastResult, hlast] using hres
      have hm : d.isMore = false := by
        cases hmm : d.isMore
        · rfl
        · simp [hmm] at hseal2
      have hfind : MockResolve.findResult (pre ++ c :: post) (stripToInv c) = some d := by
        rw [findResult_append_skip pre _ _ hpre]
        exact findResult_cons_hit c post (stripToInv c) d
          (by rw [stripToInv_length]) (chainLinksMatch_self c) hlast hm
      constructor <;>
        simp [MockResolve.valueOf, MockResolve.thenValue, hfind, hres2]

/-- Witness for C4 amended: a single registered sealed chain; the invocation
rebuilt from its two operations resolves to its result on both paths. -/
theorem claim_c4_roundtrip_resolves_witness :
    MockResolve.valueOf
        [[⟨"table", Value.vstr "t", true, none⟩,
          ⟨"select", Value.varr [Value.vstr "id"], false, some (Value.vstr "ok")⟩]]
        (stripToInv
          [⟨"table", Value.vstr "t", true, none⟩,
           ⟨"select", Value.varr [Value.vstr "id"], false, some (Value.vstr "ok")⟩]) =
      some (Value.vstr "ok") :=
  (claim_c4_roundtrip_resolves [] []
    ([⟨"table", Value.vstr "t", true, none⟩,
      ⟨"select", Value.varr [Value.vstr "id"], false, some (Value.vstr "ok")⟩] : List Data)
    (Value.vstr "ok") (by decide) (by decide) (by decide)).1

/-- C9: sealing is only well-defined on a non-empty chain.  `RESOLVE` on the
empty chain built by calling the factory with no table name writes through
index `-1`, an unguarded runtime failure (modelled by `none`); on any chain
with at least one appended operation, `RESOLVE` succeeds, setting `isMore`
to false and attaching the result on the last element while leaving the
front of the chain untouched. -/
theorem claim_c9_resolve_needs_nonempty (c : List Data) (v : Value) :
    MockQuery.RESOLVE (mockQueryInit none) v = none ∧
      (c ≠ [] →
        MockQuery.RESOLVE c v = some (sealLast c v) ∧
          sealedb (sealLast c v) = true ∧
          lastResult (sealLast c v) = some v ∧
          (sealLast c v).dropLast = c.dropLast ∧
          (sealLast c v).length = c.length) := by
  refine ⟨rfl, fun h => ?_⟩
  obtain ⟨d, hd⟩ := Option.isSome_iff_exists.1 (List.getLast?_isSome.mpr h)
  refine ⟨RESOLVE_of_ne_nil c v h, sealedb_sealLast c v h, lastResult_sealLast c v h,
    ?_, ?_⟩
  · rw [sealLast_eq c d v hd, List.dropLast_concat]
  · rw [sealLast_eq c d v hd]
    have hlen := List.length_dropLast c
    have hpos : 0 < c.length := List.length_pos.mpr h
    simp only [List.length_append, List.length_cons, List.length_nil]
    omega

/-- Witness for C9: `RESOLVE` on a one-element chain seals it in place. -/
theorem claim_c9_resolve_needs_nonempty_witness :
    MockQuery.RESOLVE (mockQueryInit none) (Value.vstr "r") = none ∧
      MockQuery.RESOLVE [⟨"table", Value.vstr "t", true, none⟩] (Value.vstr "r") =
        some (sealLast [⟨"table", Value.vstr "t", true, none⟩] (Value.vstr "r")) :=
  ⟨(claim_c9_resolve_needs_nonempty [] (Value.vstr "r")).1,
    ((claim_c9_resolve_needs_nonempty [⟨"table", Value.vstr "t", true, none⟩]
      (Value.vstr "r")).2 (by decide)).1⟩

/-- C1 fails as stated: neither finalizing an already-sealed chain nor
appending after finalize raises an error.  On a sealed one-operation chain a
second `RESOLVE` succeeds — returning an updated chain whose result has been
silently overwritten — and a subsequent `select` silently appends a new
operation instead of failing. -/
theorem claim_c1_counterexample :
    MockQuery.RESOLVE ([⟨"table", Value.vstr "t", false, some (Value.vstr "r1")⟩] : List Data)
        (Value.vstr "r2") ≠ none ∧
      MockQuery.RESOLVE ([⟨"table", Value.vstr "t", false, some (Value.vstr "r1")⟩] : List Data)
          (Value.vstr "r2") =
        some [⟨"table", Value.vstr "t", false, some (Value.vstr "r2")⟩] ∧
      MockQuery.select ([⟨"table", Value.vstr "t", false, some (Value.vstr "r1")⟩] : List Data)
          [Value.vstr "x"] =
        [⟨"table", Value.vstr "t", false, some (Value.vstr "r1")⟩,
         ⟨"select", Value.varr [Value.vstr "x"], true, none⟩] := by decide

/-- C1 amended: misuse of a builder after finalize does not raise.  A second
`RESOLVE` on the sealed chain succeeds and silently overwrites the terminal
result in place, and a fluent operation after `RESOLVE` silently appends its
operation to the chain, which thereby stops being sealed. -/
theorem claim_c1_misuse_is_silent (c : List Data) (v₁ v₂ : Value)
    (args : List Value) (h : c ≠ []) :
    MockQuery.RESOLVE (sealLast c v₁) v₂ = some (sealLast c v₂) ∧
      MockQuery.select (sealLast c v₁) args =
        sealLast c v₁ ++ [CraftData SELECT (Value.varr args) true] ∧
      sealedb (sealLast c v₁ ++ [CraftData SELECT (Value.varr args) true]) = false := by
  refine ⟨?_, rfl, ?_⟩
  · rw [RESOLVE_of_ne_nil _ v₂ (sealLast_ne_nil c v₁ h), sealLast_sealLast c v₁ v₂ h]
  · simp [sealedb, List.getLast?_concat, CraftData]

/-- Witness for C1 amended: the sealed one-operation chain from the
counterexample scenario. -/
theorem claim_c1_misuse_is_silent_witness :
    MockQuery.RESOLVE (sealLast [⟨"table", Value.vstr "t", true, none⟩] (Value.vstr "r1"))
        (Value.vstr "r2") =
      some (sealLast [⟨"table", Value.vstr "t", true, none⟩] (Value.vstr "r2")) :=
  (claim_c1_misuse_is_silent [⟨"table", Value.vstr "t", true, none⟩]
    (Value.vstr "r1") (Value.vstr "r2") [Value.vstr "x"] (by decide)).1

/-- C2 fails as stated: the raw factory seed carries the same operation name
`table` as a table seed — only the parameter string is tagged `raw:` — so the
chain seeded by `EXPECT().raw("q")` is structurally identical to the chain
seeded by the factory with table name `raw:q`, and a table-seeded invocation
`MockDB()("raw:q")` resolves a raw-seeded expectation `EXPECT().raw("q")` to
its registered result instead of never matching it. -/
theorem claim_c2_counterexample :
    expectRaw "q" = mockQueryInit (some "raw:q") ∧
      (expectRaw "q").head?.map Data.action = some TABLE ∧
      (mockQueryInit (some "users")).head?.map Data.action = some TABLE ∧
      MockResolve.valueOf [sealLast (expectRaw "q") (Value.vstr "boom")]
          (MockResolve.init (some "raw:q")) =
        some (Value.vstr "boom") := by decide

/-- C2 amended: both factory seeds carry the operation name `table`; the raw
factory embeds the raw text as the parameter string `raw:` ++ text, so a
raw-seeded chain equals a table-seeded chain exactly when the table name is
the tagged raw text.  For every non-empty table name t distinct from
`raw:` ++ r, a raw-seeded expectation with text r resolves a raw-seeded
invocation with identical text r but not a table-seeded invocation with name
t, and a table-seeded expectation with name t does not resolve the raw-seeded
invocation. -/
theorem claim_c2_raw_vs_table_seeds (t r : String) (res : Value)
    (ht : t ≠ "") (hne : t ≠ rawTag r) :
    expectRaw r = [CraftData TABLE (Value.vstr (rawTag r)) true] ∧
      mockQueryInit (some t) = [CraftData TABLE (Value.vstr t) true] ∧
      (expectRaw r = mockQueryInit (some t) ↔ t = rawTag r) ∧
      MockResolve.valueOf [sealLast (expectRaw r) res] (MockResolve.initRaw r) =
        some res ∧
      MockResolve.valueOf [sealLast (expectRaw r) res] (MockResolve.init (some t)) =
        some (Value.varr []) ∧
      MockResolve.valueOf [sealLast (mockQueryInit (some t)) res]
          (MockResolve.initRaw r) =
        some (Value.varr []) := by
  have hraw : rawTag r ≠ "" := rawTag_ne_empty r
  have hrawlen : paramsLen (Value.vstr (rawTag r)) ≠ 0 := by
    simpa [paramsLen] using fun hz => hraw (str_of_length_zero _ hz)
  have htlen : paramsLen (Value.vstr t) ≠ 0 := by
    simpa [paramsLen] using fun hz => ht (str_of_length_zero _ hz)
  have h1 : expectRaw r = [CraftData TABLE (Value.vstr (rawTag r)) true] := by
    simp [expectRaw, mockQueryInit, hraw]
  have h2 : mockQueryInit (some t) = [CraftData TABLE (Value.vstr t) true] := by
    simp [mockQueryInit, ht]
  have hseal1 : sealLast (expectRaw r) res =
      [⟨TABLE, Value.vstr (rawTag r), false, some res⟩] := by
    rw [h1]; simp [sealLast, CraftData]
  have hseal2 : sealLast (mockQueryInit (some t)) res =
      [⟨TABLE, Value.vstr t, false, some res⟩] := by
    rw [h2]; simp [sealLast, CraftData]
  have hinv1 : MockResolve.initRaw r = [⟨TABLE, Value.vstr (rawTag r), true, none⟩] := by
    simp [MockResolve.initRaw, MockResolve.init, hraw, CraftData]
  have hinv2 : MockResolve.init (some t) = [⟨TABLE, Value.vstr t, true, none⟩] := by
    simp [MockResolve.init, ht, CraftData]
  refine ⟨h1, h2, ?_, ?_, ?_, ?_⟩
  · rw [h1, h2]
    constructor
    · intro h
      have := List.head_eq_of_cons_eq h
      simpa [CraftData, eq_comm] using congrArg Data.parameters this
    · intro h; rw [h]
  · rw [hseal1, hinv1, valueOf_single_seed _ _ _ _ hrawlen]
    simp
  · rw [hseal1, hinv2, valueOf_single_seed _ _ _ _ hrawlen]
    simp
    exact fun h => absurd h.symm hne
  · rw [hseal2, hinv1, valueOf_single_seed _ _ _ _ htlen]
    simp
    exact fun h => absurd h hne

/-- Witness for C2 amended: raw text `select 1` against table name `users`. -/
theorem claim_c2_raw_vs_table_seeds_witness :
    MockResolve.valueOf [sealLast (expectRaw "select 1") (Value.vstr "ok")]
        (MockResolve.initRaw "select 1") = some (Value.vstr "ok") :=
  (claim_c2_raw_vs_table_seeds "users" "select 1" (Value.vstr "ok")
    (by decide) (by decide)).2.2.2.1

/-- C10: the table seed stores its parameters as the bare string while the
fluent `table()` method stores the variadic argument array; consequently, for
every non-empty table name t (the factory seeds only truthy names), a sealed
expectation chain seeded by the factory resolves an invocation seeded by the
double's factory with the same name, but not an invocation whose first
operation came from calling `table(t)` on an unseeded proxy — and
conversely. -/
theorem claim_c10_seed_vs_table_method (t : String) (res : Value) (ht : t ≠ "") :
    mockQueryInit (some t) = [CraftData TABLE (Value.vstr t) true] ∧
      MockQuery.table [] [Value.vstr t] =
        [CraftData TABLE (Value.varr [Value.vstr t]) true] ∧
      MockResolve.valueOf [sealLast (mockQueryInit (some t)) res]
          (MockResolve.init (some t)) = some res ∧
      MockResolve.valueOf [sealLast (mockQueryInit (some t)) res]
          (MockResolve.table [] [Value.vstr t]) = some (Value.varr []) ∧
      MockResolve.valueOf [sealLast (MockQuery.table [] [Value.vstr t]) res]
          (MockResolve.init (some t)) = some (Value.varr []) := by
  have htlen : paramsLen (Value.vstr t) ≠ 0 := by
    simpa [paramsLen] using fun hz => ht (str_of_length_zero _ hz)
  have harrlen : paramsLen (Value.varr [Value.vstr t]) ≠ 0 := by
    simp [paramsLen]
  have h2 : mockQueryInit (some t) = [CraftData TABLE (Value.vstr t) true] := by
    simp [mockQueryInit, ht]
  have hseal2 : sealLast (mockQueryInit (some t)) res =
      [⟨TABLE, Value.vstr t, false, some res⟩] := by
    rw [h2]; simp [sealLast, CraftData]
  have hsealtab : sealLast (MockQuery.table [] [Value.vstr t]) res =
      [⟨TABLE, Value.varr [Value.vstr t], false, some res⟩] := by
    simp [MockQuery.table, sealLast, CraftData]
  have hinv2 : MockResolve.init (some t) = [⟨TABLE, Value.vstr t, true, none⟩] := by
    simp [MockResolve.init, ht, CraftData]
  have hinvtab : MockResolve.table [] [Value.vstr t] =
      [⟨TABLE, Value.varr [Value.vstr t], true, none⟩] := by
    simp [MockResolve.table, CraftData]
  refine ⟨h2, rfl, ?_, ?_, ?_⟩
  · rw [hseal2, hinv2, valueOf_single_seed _ _ _ _ htlen]
    simp
  · rw [hseal2, hinvtab, valueOf_single_seed _ _ _ _ htlen]
    simp
  · rw [hsealtab, hinv2, valueOf_single_seed _ _ _ _ harrlen]
    simp

/-- Witness for C10: table name `myTable`. -/
theorem claim_c10_seed_vs_table_method_witness :
    MockResolve.valueOf [sealLast (mockQueryInit (some "myTable")) (Value.vstr "ok")]
        (MockResolve.init (some "myTable")) = some (Value.vstr "ok") ∧
      MockResolve.valueOf [sealLast (mockQueryInit (some "myTable")) (Value.vstr "ok")]
        (MockResolve.table [] [Value.vstr "myTable"]) = some (Value.varr []) :=
  ⟨(claim_c10_seed_vs_table_method "myTable" (Value.vstr "ok") (by decide)).2.2.1,
    (claim_c10_seed_vs_table_method "myTable" (Value.vstr "ok") (by decide)).2.2.2.1⟩
